import Mathlib

/-!
# Verification of the ZMPT101B RMS-voltage estimation core

Shallow embedding of the `ZMPT101B` MicroPython class that appears (in two
near-identical copies) in `micropython_scripts/w55rp20_networked_voltage_reader.py`
and `micropython_scripts/zmpt101b_voltage_monitor_rpi_pico.py`.

The hardware environment (the ADC pin and the monotonic microsecond clock) is
modelled as a deterministic script: the k-th call to `time.ticks_us` returns
`clock k` and the k-th call to `self.pin.read_u16` returns `sample k`.  The
busy-wait loops of the source are embedded as fuel-indexed recursions that
return `none` when the fuel runs out (i.e. when the loop would still be
running); every claim about a completed run carries the corresponding
`= some _` hypothesis.

Python's unbounded integers are `Nat`/`Int`; Python floats are idealised as
real numbers (`ℝ`), with the literal `3.3` read as the rational `33/10`.
MicroPython's `time.ticks_diff` is modelled, parametric in the counter width
`w`, by its documented semantics: the signed representative of
`(a - b) mod 2^w` lying in `[-2^w/2, 2^w/2)`.
-/

namespace EnergyMonitor

/-- Deterministic environment script: `clock k` is the value returned by the
k-th call to `time.ticks_us`, `sample k` the value returned by the k-th call
to `self.pin.read_u16`. -/
structure Script where
  clock : Nat → Nat
  sample : Nat → Nat

/-- How many clock reads and sample reads have happened so far. -/
structure EnvState where
  clockCalls : Nat
  sampleCalls : Nat
deriving DecidableEq

/-- One call to `time.ticks_us()`: yields the scripted tick and bumps the
clock-call counter. -/
def ticksUs (s : Script) (e : EnvState) : Nat × EnvState :=
  (s.clock e.clockCalls, ⟨e.clockCalls + 1, e.sampleCalls⟩)

/-- One call to `self.pin.read_u16()`: yields the scripted raw sample and
bumps the sample-call counter. -/
def readU16 (s : Script) (e : EnvState) : Nat × EnvState :=
  (s.sample e.sampleCalls, ⟨e.clockCalls, e.sampleCalls + 1⟩)

/-- MicroPython's `time.ticks_diff(a, b)` on a counter of width `w` bits:
the representative of `(a - b) mod 2^w` in `[-2^w/2, 2^w/2)`. -/
def ticksDiff (w : Nat) (a b : Nat) : Int :=
  ((a : Int) - (b : Int) + 2 ^ w / 2) % 2 ^ w - 2 ^ w / 2

/-- Outcome of a Python function that may raise `ZeroDivisionError`. -/
inductive PyResult (α : Type) where
  | ok (v : α)
  | zeroDivisionError

namespace Networked
/-! ## The `ZMPT101B` class of `w55rp20_networked_voltage_reader.py` -/

/-- The instance state created by `ZMPT101B.__init__` (the `machine.ADC`
object itself is externalised into the `Script`; only the pin number is
recorded). -/
structure ZMPT101B where
  pin : Nat
  period : Nat
  sensitivity : ℚ
  VREF : ℚ
  ADC_SCALE : Nat
deriving DecidableEq

/-- `ZMPT101B.__init__(pin, frequency)`. -/
def ZMPT101B.init (pin frequency : Nat) : ZMPT101B :=
  { pin := pin
    period := 1000000 / frequency
    sensitivity := 1.0
    VREF := 3.3
    ADC_SCALE := 65535 }

/-- `ZMPT101B.set_sensitivity(value)`. -/
def set_sensitivity (z : ZMPT101B) (value : ℚ) : ZMPT101B :=
  { z with sensitivity := value }

/-- The sampling loop of `get_zero_point`:
`while time.ticks_diff(time.ticks_us(), t_start) < self.period:` accumulating
`Vsum += self.pin.read_u16()` and `measurements_count += 1`.  Fuel-indexed;
`none` means the loop was still running when the fuel ran out. -/
def zeroLoop (z : ZMPT101B) (s : Script) (w tStart : Nat) :
    Nat → EnvState → Nat → Nat → Option (Nat × Nat × EnvState)
  | 0, _, _, _ => none
  | fuel + 1, e, vsum, cnt =>
    let r := ticksUs s e
    if ticksDiff w r.1 tStart < (z.period : Int) then
      let v := readU16 s r.2
      zeroLoop z s w tStart fuel v.2 (vsum + v.1) (cnt + 1)
    else
      some (vsum, cnt, r.2)

/-- `ZMPT101B.get_zero_point()`: sample raw values over one AC cycle and
return `Vsum // measurements_count`, or `0` when no measurement was taken. -/
def get_zero_point (z : ZMPT101B) (s : Script) (w fuel : Nat) (e : EnvState) :
    Option (Nat × EnvState) :=
  let t := ticksUs s e
  match zeroLoop z s w t.1 fuel t.2 0 0 with
  | none => none
  | some (vsum, cnt, e1) =>
    if cnt = 0 then some (0, e1) else some (vsum / cnt, e1)

/-- The squaring loop of `get_rms_voltage`: over one AC cycle accumulate
`Vsum += (Vnow * Vnow)` with `Vnow = self.pin.read_u16() - zero_point`
(a signed quantity, hence `Int`). -/
def squareLoop (z : ZMPT101B) (s : Script) (w : Nat) (zeroPoint : Int)
    (tStart : Nat) :
    Nat → EnvState → Int → Nat → Option (Int × Nat × EnvState)
  | 0, _, _, _ => none
  | fuel + 1, e, vsum, cnt =>
    let r := ticksUs s e
    if ticksDiff w r.1 tStart < (z.period : Int) then
      let v := readU16 s r.2
      let vnow : Int := (v.1 : Int) - zeroPoint
      squareLoop z s w zeroPoint tStart fuel v.2 (vsum + vnow * vnow) (cnt + 1)
    else
      some (vsum, cnt, r.2)

/-- The `for _ in range(loop_count)` loop of `get_rms_voltage`, recording the
integer data `(Vsum, measurements_count)` of each completed cycle.
`some none` is the early `return 0.0` taken when a cycle collects zero
samples; `some (some (cycles, e))` is normal completion. -/
def cyclesLoop (z : ZMPT101B) (s : Script) (w fuel : Nat) :
    Nat → EnvState → Option (Option (List (Int × Nat) × EnvState))
  | 0, e => some (some ([], e))
  | n + 1, e =>
    match get_zero_point z s w fuel e with
    | none => none
    | some (zp, e1) =>
      let t := ticksUs s e1
      match squareLoop z s w (zp : Int) t.1 fuel t.2 0 0 with
      | none => none
      | some (vsum, cnt, e2) =>
        if cnt = 0 then some none
        else
          match cyclesLoop z s w fuel n e2 with
          | none => none
          | some none => some none
          | some (some (rest, e3)) => some (some ((vsum, cnt) :: rest, e3))

/-- The per-cycle voltage computed by `get_rms_voltage` from a cycle's
`(Vsum, measurements_count)`:
`math.sqrt(Vsum / measurements_count) / self.ADC_SCALE * self.VREF *
self.sensitivity`. -/
noncomputable def cycleVoltage (z : ZMPT101B) (vsum : Int) (cnt : Nat) : ℝ :=
  Real.sqrt ((vsum : ℝ) / (cnt : ℝ)) / (z.ADC_SCALE : ℝ) * (z.VREF : ℝ) *
    (z.sensitivity : ℝ)

/-- `ZMPT101B.get_rms_voltage(loop_count)`.  The accumulated
`reading_voltage` is the in-order fold of the per-cycle voltages; the final
`reading_voltage / loop_count` raises `ZeroDivisionError` when
`loop_count = 0`. -/
noncomputable def get_rms_voltage (z : ZMPT101B) (s : Script)
    (w fuel loop_count : Nat) (e : EnvState) : Option (PyResult ℝ) :=
  match cyclesLoop z s w fuel loop_count e with
  | none => none
  | some none => some (PyResult.ok 0)
  | some (some (cycles, _)) =>
    if loop_count = 0 then some PyResult.zeroDivisionError
    else
      some (PyResult.ok
        ((cycles.foldl (fun acc c => acc + cycleVoltage z c.1 c.2) 0) /
          (loop_count : ℝ)))

end Networked

namespace Pico
/-! ## The `ZMPT101B` class of `zmpt101b_voltage_monitor_rpi_pico.py`

A near-verbatim duplicate of the class above; it is embedded separately,
statement for statement, so that the behavioural equivalence of the two
copies is a theorem rather than an artefact of sharing definitions. -/

/-- The instance state created by this file's `ZMPT101B.__init__`. -/
structure ZMPT101B where
  pin : Nat
  period : Nat
  sensitivity : ℚ
  VREF : ℚ
  ADC_SCALE : Nat
deriving DecidableEq

/-- `ZMPT101B.__init__(pin, frequency)` of the Pico script. -/
def ZMPT101B.init (pin frequency : Nat) : ZMPT101B :=
  { pin := pin
    period := 1000000 / frequency
    sensitivity := 1.0
    VREF := 3.3
    ADC_SCALE := 65535 }

/-- `ZMPT101B.set_sensitivity(value)` of the Pico script. -/
def set_sensitivity (z : ZMPT101B) (value : ℚ) : ZMPT101B :=
  { z with sensitivity := value }

/-- The sampling loop of the Pico script's `get_zero_point`. -/
def zeroLoop (z : ZMPT101B) (s : Script) (w tStart : Nat) :
    Nat → EnvState → Nat → Nat → Option (Nat × Nat × EnvState)
  | 0, _, _, _ => none
  | fuel + 1, e, vsum, cnt =>
    let r := ticksUs s e
    if ticksDiff w r.1 tStart < (z.period : Int) then
      let v := readU16 s r.2
      zeroLoop z s w tStart fuel v.2 (vsum + v.1) (cnt + 1)
    else
      some (vsum, cnt, r.2)

/-- The Pico script's `ZMPT101B.get_zero_point()`. -/
def get_zero_point (z : ZMPT101B) (s : Script) (w fuel : Nat) (e : EnvState) :
    Option (Nat × EnvState) :=
  let t := ticksUs s e
  match zeroLoop z s w t.1 fuel t.2 0 0 with
  | none => none
  | some (vsum, cnt, e1) =>
    if cnt = 0 then some (0, e1) else some (vsum / cnt, e1)

/-- The squaring loop of the Pico script's `get_rms_voltage`. -/
def squareLoop (z : ZMPT101B) (s : Script) (w : Nat) (zeroPoint : Int)
    (tStart : Nat) :
    Nat → EnvState → Int → Nat → Option (Int × Nat × EnvState)
  | 0, _, _, _ => none
  | fuel + 1, e, vsum, cnt =>
    let r := ticksUs s e
    if ticksDiff w r.1 tStart < (z.period : Int) then
      let v := readU16 s r.2
      let vnow : Int := (v.1 : Int) - zeroPoint
      squareLoop z s w zeroPoint tStart fuel v.2 (vsum + vnow * vnow) (cnt + 1)
    else
      some (vsum, cnt, r.2)

/-- The `for _ in range(loop_count)` loop of the Pico script's
`get_rms_voltage`. -/
def cyclesLoop (z : ZMPT101B) (s : Script) (w fuel : Nat) :
    Nat → EnvState → Option (Option (List (Int × Nat) × EnvState))
  | 0, e => some (some ([], e))
  | n + 1, e =>
    match get_zero_point z s w fuel e with
    | none => none
    | some (zp, e1) =>
      let t := ticksUs s e1
      match squareLoop z s w (zp : Int) t.1 fuel t.2 0 0 with
      | none => none
      | some (vsum, cnt, e2) =>
        if cnt = 0 then some none
        else
          match cyclesLoop z s w fuel n e2 with
          | none => none
          | some none => some none
          | some (some (rest, e3)) => some (some ((vsum, cnt) :: rest, e3))

/-- Per-cycle voltage of the Pico script's `get_rms_voltage`. -/
noncomputable def cycleVoltage (z : ZMPT101B) (vsum : Int) (cnt : Nat) : ℝ :=
  Real.sqrt ((vsum : ℝ) / (cnt : ℝ)) / (z.ADC_SCALE : ℝ) * (z.VREF : ℝ) *
    (z.sensitivity : ℝ)

/-- The Pico script's `ZMPT101B.get_rms_voltage(loop_count)`. -/
noncomputable def get_rms_voltage (z : ZMPT101B) (s : Script)
    (w fuel loop_count : Nat) (e : EnvState) : Option (PyResult ℝ) :=
  match cyclesLoop z s w fuel loop_count e with
  | none => none
  | some none => some (PyResult.ok 0)
  | some (some (cycles, _)) =>
    if loop_count = 0 then some PyResult.zeroDivisionError
    else
      some (PyResult.ok
        ((cycles.foldl (fun acc c => acc + cycleVoltage z c.1 c.2) 0) /
          (loop_count : ℝ)))

end Pico

namespace Spec
/-! ## Spec-side reference computation

Instrumented observers of the same scripted runs, used to state the
functional-correctness claim: instead of running sums they record the list of
raw samples seen in each timing window, and the reference voltage formula
`sqrt(mean(squared deviations)) / digitizerMaxCode * referenceVoltage *
sensitivity` is applied to those lists. -/

open Networked

/-- The raw samples a busy-wait window collects: same exit condition as the
loops of the source, but recording the samples as a list. -/
def window (s : Script) (w period tStart : Nat) :
    Nat → EnvState → Option (List Nat × EnvState)
  | 0, _ => none
  | fuel + 1, e =>
    let r := ticksUs s e
    if ticksDiff w r.1 tStart < (period : Int) then
      let v := readU16 s r.2
      (window s w period tStart fuel v.2).map fun p => (v.1 :: p.1, p.2)
    else some ([], r.2)

/-- The zero point the spec prescribes for a window's samples: the truncating
average, `0` on an empty window. -/
def specZeroPoint (L : List Nat) : Nat :=
  if L = [] then 0 else L.sum / L.length

/-- Squared signed deviation of a raw sample from a zero point. -/
def devSq (zp : Int) (x : Nat) : Int := ((x : Int) - zp) ^ 2

/-- The per-cycle window data of a `get_rms_voltage(n)` run: for each cycle,
the samples of its zero-point window and the samples of its measurement
window. -/
def specCycles (z : ZMPT101B) (s : Script) (w fuel : Nat) :
    Nat → EnvState → Option (List (List Nat × List Nat) × EnvState)
  | 0, e => some ([], e)
  | n + 1, e =>
    let t0 := ticksUs s e
    match window s w z.period t0.1 fuel t0.2 with
    | none => none
    | some (L0, e1) =>
      let t1 := ticksUs s e1
      match window s w z.period t1.1 fuel t1.2 with
      | none => none
      | some (L1, e2) =>
        match specCycles z s w fuel n e2 with
        | none => none
        | some (rest, e3) => some ((L0, L1) :: rest, e3)

/-- The reference per-cycle voltage of the spec:
`sqrt(mean(squared deviations from the freshly estimated zero point))
/ digitizerMaxCode * referenceVoltage * sensitivity`. -/
noncomputable def specCycleVoltage (z : ZMPT101B) (c : List Nat × List Nat) :
    ℝ :=
  Real.sqrt
      ((((c.2.map (devSq (specZeroPoint c.1))).sum : Int) : ℝ) /
        (c.2.length : ℝ)) /
    (z.ADC_SCALE : ℝ) * (z.VREF : ℝ) * (z.sensitivity : ℝ)

end Spec

/-! ## Field-wise conversion between the two duplicated classes, and
concrete scripts used to exercise the claims -/

/-- The two `ZMPT101B` structures have the same fields; this is the
field-wise identification used to state their behavioural equivalence. -/
@[reducible] def toPico (z : Networked.ZMPT101B) : Pico.ZMPT101B :=
  { pin := z.pin
    period := z.period
    sensitivity := z.sensitivity
    VREF := z.VREF
    ADC_SCALE := z.ADC_SCALE }

/-- A sensor configured with `frequency = 10000`, i.e. a cycle period of
`100` microseconds, keeping concrete runs short. -/
def zW : Networked.ZMPT101B := Networked.ZMPT101B.init 26 10000

/-- A clock advancing 30 µs per reading and a constant sample source:
each 100 µs window collects exactly three samples. -/
def stepScript (c : Nat) : Script :=
  { clock := fun k => 30 * k, sample := fun _ => c }

/-- A clock advancing one full period per reading: every window is already
expired at its first check, so no samples are ever collected. -/
def preExpired : Script :=
  { clock := fun k => 100 * k, sample := fun _ => 7 }

/-- A 16-bit monotonic counter that wraps around while the zero-point window
of `get_zero_point` is open. -/
def wrapZero : Script :=
  { clock := fun k => (65500 + 30 * k) % 65536, sample := fun _ => 100 }

/-- A 16-bit monotonic counter that wraps around while the squaring window
of `get_rms_voltage` is open. -/
def wrapSquare : Script :=
  { clock := fun k => (65360 + 30 * k) % 65536, sample := fun _ => 100 }

/-! ## Window characterisations of the sampling loops -/

namespace Networked

/-- The running-sum loop of `get_zero_point` computes the sum and length of
the window's sample list. -/
theorem zeroLoop_eq_window (z : ZMPT101B) (s : Script) (w tStart fuel : Nat) :
    ∀ (e : EnvState) (vsum cnt : Nat),
      zeroLoop z s w tStart fuel e vsum cnt =
        (Spec.window s w z.period tStart fuel e).map
          (fun p => (vsum + p.1.sum, cnt + p.1.length, p.2)) := by
  induction fuel with
  | zero => intro e vsum cnt; rfl
  | succ fuel ih =>
    intro e vsum cnt
    simp only [zeroLoop, Spec.window]
    by_cases h : ticksDiff w (ticksUs s e).1 tStart < (z.period : Int)
    · rw [if_pos h, if_pos h, ih]
      cases Spec.window s w z.period tStart fuel (readU16 s (ticksUs s e).2).2
        with
      | none => rfl
      | some p =>
        simp only [Option.map_some', List.sum_cons, List.length_cons,
          Option.some.injEq, Prod.mk.injEq, and_true]
        omega
    · simp [if_neg h]

/-- The squaring loop of `get_rms_voltage` computes the sum of squared
deviations and the length of the window's sample list. -/
theorem squareLoop_eq_window (z : ZMPT101B) (s : Script) (w : Nat)
    (zp : Int) (tStart fuel : Nat) :
    ∀ (e : EnvState) (vsum : Int) (cnt : Nat),
      squareLoop z s w zp tStart fuel e vsum cnt =
        (Spec.window s w z.period tStart fuel e).map
          (fun p =>
            (vsum + (p.1.map (Spec.devSq zp)).sum, cnt + p.1.length, p.2)) := by
  induction fuel with
  | zero => intro e vsum cnt; rfl
  | succ fuel ih =>
    intro e vsum cnt
    simp only [squareLoop, Spec.window]
    by_cases h : ticksDiff w (ticksUs s e).1 tStart < (z.period : Int)
    · rw [if_pos h, if_pos h, ih]
      cases Spec.window s w z.period tStart fuel (readU16 s (ticksUs s e).2).2
        with
      | none => rfl
      | some p =>
        simp only [Option.map_some', List.map_cons, List.sum_cons,
          List.length_cons, Option.some.injEq, Prod.mk.injEq, and_true]
        constructor
        · rw [Spec.devSq]; ring
        · omega
    · simp [if_neg h]

/-- `get_zero_point` returns the truncating average of the samples its
timing window collects (and `0` on an empty window). -/
theorem get_zero_point_eq_window (z : ZMPT101B) (s : Script) (w fuel : Nat)
    (e : EnvState) :
    get_zero_point z s w fuel e =
      (Spec.window s w z.period (s.clock e.clockCalls) fuel
          ⟨e.clockCalls + 1, e.sampleCalls⟩).map
        (fun p => (Spec.specZeroPoint p.1, p.2)) := by
  rw [get_zero_point]
  simp only [ticksUs]
  rw [zeroLoop_eq_window]
  cases Spec.window s w z.period (s.clock e.clockCalls) fuel
      ⟨e.clockCalls + 1, e.sampleCalls⟩ with
  | none => rfl
  | some p =>
    simp only [Option.map_some', Nat.zero_add, Spec.specZeroPoint]
    by_cases hp : p.1 = []
    · simp [hp]
    · simp [hp, List.length_eq_zero]

/-- When every cycle of a run collects at least one measurement sample, the
cycle loop of `get_rms_voltage` completes normally and each cycle's
`(Vsum, measurements_count)` is the squared-deviation sum and length of that
cycle's measurement window, the deviations being taken from the zero point of
that cycle's own zero-point window. -/
theorem cyclesLoop_eq_spec (z : ZMPT101B) (s : Script) (w fuel : Nat) :
    ∀ (n : Nat) (e : EnvState) (cycles : List (List Nat × List Nat))
      (e' : EnvState),
      Spec.specCycles z s w fuel n e = some (cycles, e') →
      (∀ c ∈ cycles, c.2 ≠ []) →
      cyclesLoop z s w fuel n e =
        some (some (cycles.map (fun c =>
          ((c.2.map (Spec.devSq (Spec.specZeroPoint c.1))).sum,
            c.2.length)), e')) := by
  intro n
  induction n with
  | zero =>
    intro e cycles e' hrun hne
    simp only [Spec.specCycles, Option.some.injEq, Prod.mk.injEq] at hrun
    obtain ⟨h1, h2⟩ := hrun
    subst h1; subst h2
    rfl
  | succ n ih =>
    intro e cycles e' hrun hne
    cases h0 : Spec.window s w z.period (s.clock e.clockCalls) fuel
        ⟨e.clockCalls + 1, e.sampleCalls⟩ with
    | none =>
      simp only [Spec.specCycles, ticksUs, h0] at hrun
      exact Option.noConfusion hrun
    | some p0 =>
      obtain ⟨L0, e1⟩ := p0
      cases h1 : Spec.window s w z.period (s.clock e1.clockCalls) fuel
          ⟨e1.clockCalls + 1, e1.sampleCalls⟩ with
      | none =>
        simp only [Spec.specCycles, ticksUs, h0, h1] at hrun
        exact Option.noConfusion hrun
      | some p1 =>
        obtain ⟨L1, e2⟩ := p1
        cases h2 : Spec.specCycles z s w fuel n e2 with
        | none =>
          simp only [Spec.specCycles, ticksUs, h0, h1, h2] at hrun
          exact Option.noConfusion hrun
        | some pr =>
          obtain ⟨rest, e3⟩ := pr
          simp only [Spec.specCycles, ticksUs, h0, h1, h2, Option.some.injEq,
            Prod.mk.injEq] at hrun
          obtain ⟨hc, he⟩ := hrun
          subst hc; subst he
          have hL1 : L1 ≠ [] := hne (L0, L1) (List.mem_cons_self _ _)
          have hlen : L1.length ≠ 0 := fun hz => hL1 (List.length_eq_zero.mp hz)
          simp only [cyclesLoop]
          rw [get_zero_point_eq_window, h0]
          simp only [Option.map_some', ticksUs]
          rw [squareLoop_eq_window, h1]
          simp only [Option.map_some', Nat.zero_add, zero_add, if_neg hlen]
          rw [ih e2 rest e3 h2
            (fun c hc => hne c (List.mem_cons_of_mem _ hc))]
          simp


end Networked

/-! ## Claim theorems -/

/-- C1: against any deterministic sample/clock script under which a
`get_rms_voltage(cycleCount)` run completes with every cycle collecting at
least one sample, the returned value is exactly the average over the
`cycleCount` cycles of `sqrt(mean of squared signed deviations of that
cycle's samples from that cycle's freshly estimated zero point) /
digitizerMaxCode * referenceVoltage * sensitivity`, the final average being
the division of the accumulated total by `cycleCount`. -/
theorem get_rms_voltage_matches_spec (z : Networked.ZMPT101B) (s : Script)
    (w fuel n : Nat) (e e' : EnvState)
    (cycles : List (List Nat × List Nat))
    (hrun : Spec.specCycles z s w fuel n e = some (cycles, e'))
    (hne : ∀ c ∈ cycles, c.2 ≠ [])
    (hn : n ≠ 0) :
    Networked.get_rms_voltage z s w fuel n e =
      some (PyResult.ok
        ((cycles.foldl (fun acc c => acc + Spec.specCycleVoltage z c) 0) /
          (n : ℝ))) := by
  rw [Networked.get_rms_voltage,
    Networked.cyclesLoop_eq_spec z s w fuel n e cycles e' hrun hne]
  simp only [if_neg hn, List.foldl_map, Option.some.injEq]
  rfl

/-- C1 witness: one cycle against a constant-100 source with a 30 µs-step
clock; both windows collect the samples `[100, 100, 100]`. -/
theorem get_rms_voltage_matches_spec_witness :
    Networked.get_rms_voltage zW (stepScript 100) 16 10 1 ⟨0, 0⟩ =
      some (PyResult.ok
        ((([([100, 100, 100], [100, 100, 100])] :
            List (List Nat × List Nat)).foldl
          (fun acc c => acc + Spec.specCycleVoltage zW c) 0) / ((1 : Nat) : ℝ))) :=
  get_rms_voltage_matches_spec zW (stepScript 100) 16 10 1 ⟨0, 0⟩ ⟨10, 6⟩
    [([100, 100, 100], [100, 100, 100])] rfl (by decide) (by decide)

/-- C2: a zero-sample zero-point window makes `get_zero_point` return `0`,
and a zero-sample measurement cycle makes `get_rms_voltage` return `0.0` at
once (discarding accumulated cycles); neither raises an error. -/
theorem zero_samples_degraded (z : Networked.ZMPT101B) (s : Script)
    (w fuel n : Nat) (e : EnvState) :
    (∀ e1, Spec.window s w z.period (s.clock e.clockCalls) fuel
        ⟨e.clockCalls + 1, e.sampleCalls⟩ = some ([], e1) →
      Networked.get_zero_point z s w fuel e = some (0, e1)) ∧
    (Networked.cyclesLoop z s w fuel n e = some none →
      Networked.get_rms_voltage z s w fuel n e = some (PyResult.ok 0)) := by
  constructor
  · intro e1 h
    rw [Networked.get_zero_point_eq_window, h]
    rfl
  · intro h
    rw [Networked.get_rms_voltage, h]

/-- C2 witness: a clock advancing a full period per reading makes every
window pre-expired; `get_zero_point` returns `0` and `get_rms_voltage`
returns `0.0`. -/
theorem zero_samples_degraded_witness :
    Networked.get_zero_point zW preExpired 16 5 ⟨0, 0⟩ = some (0, ⟨2, 0⟩) ∧
    Networked.get_rms_voltage zW preExpired 16 5 1 ⟨0, 0⟩ =
      some (PyResult.ok 0) :=
  ⟨(zero_samples_degraded zW preExpired 16 5 1 ⟨0, 0⟩).1 ⟨2, 0⟩ rfl,
    (zero_samples_degraded zW preExpired 16 5 1 ⟨0, 0⟩).2 rfl⟩

/-- Every sample a window collects is a value of the script's sample
source. -/
theorem Spec.window_mem (s : Script) (w period tStart : Nat) :
    ∀ (fuel : Nat) (e : EnvState) (L : List Nat) (e1 : EnvState),
      Spec.window s w period tStart fuel e = some (L, e1) →
      ∀ x ∈ L, ∃ k, x = s.sample k := by
  intro fuel
  induction fuel with
  | zero => intro e L e1 h; exact Option.noConfusion h
  | succ fuel ih =>
    intro e L e1 h
    rw [Spec.window] at h
    by_cases hc : ticksDiff w (ticksUs s e).1 tStart < (period : Int)
    · rw [if_pos hc] at h
      rcases Option.map_eq_some'.mp h with ⟨p, hp, hL⟩
      intro x hx
      rcases hL with hL
      cases hL
      rcases List.mem_cons.mp hx with hx | hx
      · exact ⟨(ticksUs s e).2.sampleCalls, hx⟩
      · exact ih _ p.1 p.2 (by rw [hp]) x hx
    · rw [if_neg hc] at h
      intro x hx
      cases h
      cases hx

/-- C3: whenever the zero-point window collects at least one sample,
`get_zero_point` returns the truncating integer division of the sum of the
collected raw samples by their count; on a constant-value source it returns
exactly that constant. -/
theorem get_zero_point_average (z : Networked.ZMPT101B) (s : Script)
    (w fuel : Nat) (e e1 : EnvState) (L : List Nat)
    (hw : Spec.window s w z.period (s.clock e.clockCalls) fuel
        ⟨e.clockCalls + 1, e.sampleCalls⟩ = some (L, e1))
    (hL : L ≠ []) :
    Networked.get_zero_point z s w fuel e = some (L.sum / L.length, e1) ∧
    ∀ c : Nat, (∀ k, s.sample k = c) →
      Networked.get_zero_point z s w fuel e = some (c, e1) := by
  have hmain : Networked.get_zero_point z s w fuel e =
      some (L.sum / L.length, e1) := by
    rw [Networked.get_zero_point_eq_window, hw]
    simp [Spec.specZeroPoint, hL]
  refine ⟨hmain, fun c hconst => ?_⟩
  have hall : ∀ x ∈ L, x = c := by
    intro x hx
    rcases Spec.window_mem s w z.period (s.clock e.clockCalls) fuel
        ⟨e.clockCalls + 1, e.sampleCalls⟩ L e1 hw x hx with ⟨k, hk⟩
    rw [hk, hconst k]
  have hrepl : L = List.replicate L.length c :=
    List.eq_replicate_iff.mpr ⟨rfl, hall⟩
  have hsum : L.sum = L.length * c := by
    rw [hrepl, List.sum_replicate, smul_eq_mul, List.length_replicate]
  have hlen : L.length ≠ 0 := fun h0 => hL (List.length_eq_zero.mp h0)
  rw [hmain, hsum, Nat.mul_div_cancel_left c (Nat.pos_of_ne_zero hlen)]

/-- C3 witness: a constant source of value `777`, three samples per window;
`get_zero_point` returns exactly `777`. -/
theorem get_zero_point_average_witness :
    Networked.get_zero_point zW (stepScript 777) 16 10 ⟨0, 0⟩ =
      some (777, ⟨5, 3⟩) :=
  (get_zero_point_average zW (stepScript 777) 16 10 ⟨0, 0⟩ ⟨5, 3⟩
      [777, 777, 777] rfl (by decide)).2 777 (fun _ => rfl)

/-- C4: both sampling loops measure elapsed time through `ticksDiff`, which
depends only on `(now - t_start) mod 2^w` (so it is invariant under counter
wraparound) and equals `(now - t_start) mod 2^w` whenever that bounded value
is below half the counter range; concretely, a 16-bit counter that wraps
mid-window still gives a normal, non-degraded result in the zero-point loop
and in the squaring loop. -/
theorem ticks_wraparound_safe (w a b : Nat) (hw : 0 < w)
    (hm : ((a : Int) - (b : Int)) % 2 ^ w < 2 ^ w / 2) :
    ticksDiff w (a % 2 ^ w) (b % 2 ^ w) = ticksDiff w a b ∧
    ticksDiff w a b = ((a : Int) - (b : Int)) % 2 ^ w ∧
    Networked.get_zero_point zW wrapZero 16 10 ⟨0, 0⟩ = some (100, ⟨5, 3⟩) ∧
    Networked.cyclesLoop zW wrapSquare 16 10 1 ⟨0, 0⟩ =
      some (some ([(0, 3)], ⟨10, 6⟩)) := by
  obtain ⟨w', rfl⟩ : ∃ w', w = w' + 1 := ⟨w - 1, by omega⟩
  have hP : ((2 : Int) ^ (w' + 1)) = 2 * 2 ^ w' := by ring
  have hH : ((2 : Int) ^ (w' + 1)) / 2 = 2 ^ w' := by
    rw [hP, Int.mul_ediv_cancel_left _ (by norm_num)]
  have hPpos : (0 : Int) < 2 ^ (w' + 1) := by positivity
  have hH0 : (0 : Int) ≤ 2 ^ w' := by positivity
  have hHltP : (2 : Int) ^ w' < 2 ^ (w' + 1) := by
    have : (0 : Int) < 2 ^ w' := by positivity
    rw [hP]; linarith
  refine ⟨?_, ?_, rfl, rfl⟩
  · have key : ∀ x y : Int,
        (x % 2 ^ (w' + 1) - y % 2 ^ (w' + 1) + 2 ^ (w' + 1) / 2) %
            2 ^ (w' + 1) =
          (x - y + 2 ^ (w' + 1) / 2) % 2 ^ (w' + 1) := by
      intro x y
      calc (x % 2 ^ (w' + 1) - y % 2 ^ (w' + 1) + 2 ^ (w' + 1) / 2) %
              2 ^ (w' + 1)
          = ((x % 2 ^ (w' + 1) - y % 2 ^ (w' + 1)) % 2 ^ (w' + 1) +
              (2 ^ (w' + 1) / 2) % 2 ^ (w' + 1)) % 2 ^ (w' + 1) := by
            rw [← Int.add_emod]
        _ = ((x - y) % 2 ^ (w' + 1) +
              (2 ^ (w' + 1) / 2) % 2 ^ (w' + 1)) % 2 ^ (w' + 1) := by
            rw [← Int.sub_emod]
        _ = (x - y + 2 ^ (w' + 1) / 2) % 2 ^ (w' + 1) := by
            rw [← Int.add_emod]
    rw [ticksDiff, ticksDiff]
    push_cast
    rw [key]
  · have h0 : (0 : Int) ≤ ((a : Int) - (b : Int)) % 2 ^ (w' + 1) :=
      Int.emod_nonneg _ (ne_of_gt hPpos)
    have hm' : ((a : Int) - (b : Int)) % 2 ^ (w' + 1) < 2 ^ w' := by
      rw [← hH]; exact hm
    have hHmod : (2 : Int) ^ w' % 2 ^ (w' + 1) = 2 ^ w' :=
      Int.emod_eq_of_lt hH0 hHltP
    have hsum : ((a : Int) - (b : Int)) % 2 ^ (w' + 1) + 2 ^ w' <
        2 ^ (w' + 1) := by
      linarith
    rw [ticksDiff, hH, Int.add_emod, hHmod,
      Int.emod_eq_of_lt (add_nonneg h0 hH0) hsum]
    ring

/-- C4 witness: on a 16-bit counter, the tick values `65560` (which wraps to
`24`) and `65500` measure an elapsed time of `60` either way. -/
theorem ticks_wraparound_safe_witness :
    ticksDiff 16 (65560 % 2 ^ 16) (65500 % 2 ^ 16) =
      ticksDiff 16 65560 65500 ∧
    ticksDiff 16 65560 65500 =
      (((65560 : Nat) : Int) - ((65500 : Nat) : Int)) % 2 ^ 16 ∧
    Networked.get_zero_point zW wrapZero 16 10 ⟨0, 0⟩ = some (100, ⟨5, 3⟩) ∧
    Networked.cyclesLoop zW wrapSquare 16 10 1 ⟨0, 0⟩ =
      some (some ([(0, 3)], ⟨10, 6⟩)) :=
  ticks_wraparound_safe 16 65560 65500 (by decide) (by decide)

/-- C5: with sensitivity set to `0`, every completed `get_rms_voltage` call
with positive `loop_count` returns exactly `0.0`, whatever the samples and
the clock did. -/
theorem sensitivity_zero (z : Networked.ZMPT101B) (s : Script)
    (w fuel n : Nat) (e : EnvState) (hn : n ≠ 0) (r : PyResult ℝ)
    (h : Networked.get_rms_voltage (Networked.set_sensitivity z 0) s w fuel n e
      = some r) :
    r = PyResult.ok 0 := by
  have hcv : ∀ (v : Int) (c : Nat),
      Networked.cycleVoltage (Networked.set_sensitivity z 0) v c = 0 := by
    intro v c
    simp [Networked.cycleVoltage, Networked.set_sensitivity]
  rw [Networked.get_rms_voltage] at h
  cases hc : Networked.cyclesLoop (Networked.set_sensitivity z 0) s w fuel n e
    with
  | none => rw [hc] at h; exact Option.noConfusion h
  | some o =>
    cases o with
    | none =>
      rw [hc] at h
      exact (Option.some.inj h).symm
    | some p =>
      obtain ⟨cs, e1⟩ := p
      rw [hc] at h
      simp only [if_neg hn] at h
      have hfold : ∀ (l : List (Int × Nat)) (acc : ℝ),
          l.foldl (fun a c =>
            a + Networked.cycleVoltage (Networked.set_sensitivity z 0) c.1 c.2)
            acc = acc := by
        intro l
        induction l with
        | nil => intro acc; rfl
        | cons x xs ih =>
          intro acc
          rw [List.foldl_cons, hcv, add_zero]
          exact ih acc
      rw [hfold, zero_div] at h
      exact (Option.some.inj h).symm

/-- C5 witness: one completed cycle against the constant-100 source with
sensitivity `0` yields exactly `0.0`. -/
theorem sensitivity_zero_witness :
    PyResult.ok ((([((0 : Int), 3)] : List (Int × Nat)).foldl
        (fun acc c =>
          acc + Networked.cycleVoltage (Networked.set_sensitivity zW 0) c.1 c.2)
        0) / ((1 : Nat) : ℝ)) = PyResult.ok 0 :=
  sensitivity_zero zW (stepScript 100) 16 10 1 ⟨0, 0⟩ (by decide) _ rfl

/-- C7: for every non-negative sensitivity, in-range sample source and
positive `loop_count`, a completed `get_rms_voltage` call returns an `ok`
value that is a non-negative real number. -/
theorem rms_value_nonneg (pin frequency : Nat) (sens : ℚ) (s : Script)
    (w fuel n : Nat) (e : EnvState) (r : PyResult ℝ)
    (hs : 0 ≤ sens)
    (_hrange : ∀ k, s.sample k ≤ 65535)
    (hn : n ≠ 0)
    (h : Networked.get_rms_voltage
        (Networked.set_sensitivity (Networked.ZMPT101B.init pin frequency) sens)
        s w fuel n e = some r) :
    ∃ v : ℝ, r = PyResult.ok v ∧ 0 ≤ v := by
  have hcv : ∀ (v : Int) (c : Nat),
      0 ≤ Networked.cycleVoltage
        (Networked.set_sensitivity (Networked.ZMPT101B.init pin frequency) sens)
        v c := by
    intro v c
    simp only [Networked.cycleVoltage, Networked.set_sensitivity,
      Networked.ZMPT101B.init]
    apply mul_nonneg
    apply mul_nonneg
    · exact div_nonneg (Real.sqrt_nonneg _) (by norm_num)
    · norm_num
    · exact_mod_cast hs
  rw [Networked.get_rms_voltage] at h
  cases hc : Networked.cyclesLoop
      (Networked.set_sensitivity (Networked.ZMPT101B.init pin frequency) sens)
      s w fuel n e with
  | none => rw [hc] at h; exact Option.noConfusion h
  | some o =>
    cases o with
    | none =>
      rw [hc] at h
      exact ⟨0, (Option.some.inj h).symm, le_refl 0⟩
    | some p =>
      obtain ⟨cs, e1⟩ := p
      rw [hc] at h
      simp only [if_neg hn] at h
      have hfold : ∀ (l : List (Int × Nat)) (acc : ℝ), 0 ≤ acc →
          0 ≤ l.foldl (fun a c =>
            a + Networked.cycleVoltage
              (Networked.set_sensitivity
                (Networked.ZMPT101B.init pin frequency) sens) c.1 c.2) acc := by
        intro l
        induction l with
        | nil => intro acc hacc; exact hacc
        | cons x xs ih =>
          intro acc hacc
          rw [List.foldl_cons]
          exact ih _ (add_nonneg hacc (hcv x.1 x.2))
      refine ⟨_, (Option.some.inj h).symm, ?_⟩
      exact div_nonneg (hfold cs 0 (le_refl 0)) (Nat.cast_nonneg n)

/-- C7 witness: one cycle against the constant-100 source with sensitivity
`1` yields an `ok`, non-negative value. -/
theorem rms_value_nonneg_witness :
    ∃ v : ℝ,
      PyResult.ok ((([((0 : Int), 3)] : List (Int × Nat)).foldl
        (fun acc c =>
          acc + Networked.cycleVoltage
            (Networked.set_sensitivity (Networked.ZMPT101B.init 26 10000) 1)
            c.1 c.2) 0) / ((1 : Nat) : ℝ)) = PyResult.ok v ∧ 0 ≤ v :=
  rms_value_nonneg 26 10000 1 (stepScript 100) 16 10 1 ⟨0, 0⟩ _
    (by norm_num) (fun _ => by norm_num [stepScript]) (by decide) rfl

/-- C8: a completed squaring loop always hands `sqrt` a non-negative
argument (its `Vsum` is a sum of squares, so the mean is non-negative) and
the resulting `rms` is non-negative. -/
theorem sqrt_argument_nonneg (z : Networked.ZMPT101B) (s : Script) (w : Nat)
    (zp : Int) (t fuel : Nat) (e : EnvState) (vsum : Int) (cnt : Nat)
    (e1 : EnvState)
    (h : Networked.squareLoop z s w zp t fuel e 0 0 = some (vsum, cnt, e1))
    (_hc : cnt ≠ 0) :
    0 ≤ vsum ∧ 0 ≤ (vsum : ℝ) / (cnt : ℝ) ∧
      0 ≤ Real.sqrt ((vsum : ℝ) / (cnt : ℝ)) := by
  rw [Networked.squareLoop_eq_window] at h
  rcases Option.map_eq_some'.mp h with ⟨p, hp, heq⟩
  simp only [Prod.mk.injEq] at heq
  obtain ⟨h1, _, _⟩ := heq
  have hS : (0 : Int) ≤ (p.1.map (Spec.devSq zp)).sum := by
    apply List.sum_nonneg
    intro x hx
    rcases List.mem_map.mp hx with ⟨y, _, rfl⟩
    rw [Spec.devSq]
    exact sq_nonneg _
  have hv : 0 ≤ vsum := by omega
  refine ⟨hv, div_nonneg (by exact_mod_cast hv) (Nat.cast_nonneg cnt),
    Real.sqrt_nonneg _⟩

/-- C8 witness: zero point `0` against the constant-100 source gives
`Vsum = 30000` over `3` samples, and `30000 / 3 ≥ 0`. -/
theorem sqrt_argument_nonneg_witness :
    (0 : Int) ≤ 30000 ∧
      0 ≤ (((30000 : Int) : ℝ) / ((3 : Nat) : ℝ)) ∧
      0 ≤ Real.sqrt (((30000 : Int) : ℝ) / ((3 : Nat) : ℝ)) :=
  sqrt_argument_nonneg zW (stepScript 100) 16 0 0 10 ⟨1, 0⟩ 30000 3 ⟨5, 3⟩
    rfl (by decide)

/-- C9: `get_rms_voltage` is deterministic — two runs against pointwise
identical replayed sample/clock scripts, from the same configuration,
sensitivity and environment position, return identical results. -/
theorem rms_deterministic (z : Networked.ZMPT101B) (s1 s2 : Script)
    (w fuel n : Nat) (e : EnvState)
    (hclock : ∀ k, s1.clock k = s2.clock k)
    (hsample : ∀ k, s1.sample k = s2.sample k) :
    Networked.get_rms_voltage z s1 w fuel n e =
      Networked.get_rms_voltage z s2 w fuel n e := by
  obtain ⟨c1, q1⟩ := s1
  obtain ⟨c2, q2⟩ := s2
  have h1 : c1 = c2 := funext hclock
  have h2 : q1 = q2 := funext hsample
  subst h1
  subst h2
  rfl

/-- C9 witness: replaying the constant-100 script gives the same result. -/
theorem rms_deterministic_witness :
    Networked.get_rms_voltage zW (stepScript 100) 16 10 1 ⟨0, 0⟩ =
      Networked.get_rms_voltage zW (stepScript 100) 16 10 1 ⟨0, 0⟩ :=
  rms_deterministic zW (stepScript 100) (stepScript 100) 16 10 1 ⟨0, 0⟩
    (fun _ => rfl) (fun _ => rfl)

/-- C10: calling `get_rms_voltage` with `loop_count = 0` runs the per-cycle
loop zero times and then fails with a `ZeroDivisionError` from the final
`reading_voltage / loop_count`, in both copies of the class. -/
theorem loop_count_zero_division (z1 : Networked.ZMPT101B)
    (z2 : Pico.ZMPT101B) (s : Script) (w fuel : Nat) (e : EnvState) :
    Networked.get_rms_voltage z1 s w fuel 0 e =
      some PyResult.zeroDivisionError ∧
    Pico.get_rms_voltage z2 s w fuel 0 e =
      some PyResult.zeroDivisionError :=
  ⟨rfl, rfl⟩

/-- The zero-point sampling loops of the two files agree step by step. -/
theorem zeroLoop_agree (z : Networked.ZMPT101B) (s : Script) (w t : Nat) :
    ∀ (fuel : Nat) (e : EnvState) (vsum cnt : Nat),
      Pico.zeroLoop (toPico z) s w t fuel e vsum cnt =
        Networked.zeroLoop z s w t fuel e vsum cnt := by
  intro fuel
  induction fuel with
  | zero => intros; rfl
  | succ fuel ih =>
    intro e vsum cnt
    simp only [Pico.zeroLoop, Networked.zeroLoop]
    by_cases h : ticksDiff w (ticksUs s e).1 t < (z.period : Int)
    · rw [if_pos h, if_pos h, ih]
    · rw [if_neg h, if_neg h]

/-- The squaring loops of the two files agree step by step. -/
theorem squareLoop_agree (z : Networked.ZMPT101B) (s : Script) (w : Nat)
    (zp : Int) (t : Nat) :
    ∀ (fuel : Nat) (e : EnvState) (vsum : Int) (cnt : Nat),
      Pico.squareLoop (toPico z) s w zp t fuel e vsum cnt =
        Networked.squareLoop z s w zp t fuel e vsum cnt := by
  intro fuel
  induction fuel with
  | zero => intros; rfl
  | succ fuel ih =>
    intro e vsum cnt
    simp only [Pico.squareLoop, Networked.squareLoop]
    by_cases h : ticksDiff w (ticksUs s e).1 t < (z.period : Int)
    · rw [if_pos h, if_pos h, ih]
    · rw [if_neg h, if_neg h]

/-- The two files' `get_zero_point` agree. -/
theorem get_zero_point_agree (z : Networked.ZMPT101B) (s : Script)
    (w fuel : Nat) (e : EnvState) :
    Pico.get_zero_point (toPico z) s w fuel e =
      Networked.get_zero_point z s w fuel e := by
  rw [Pico.get_zero_point, Networked.get_zero_point, zeroLoop_agree]

/-- The two files' cycle loops agree. -/
theorem cyclesLoop_agree (z : Networked.ZMPT101B) (s : Script)
    (w fuel : Nat) :
    ∀ (n : Nat) (e : EnvState),
      Pico.cyclesLoop (toPico z) s w fuel n e =
        Networked.cyclesLoop z s w fuel n e := by
  intro n
  induction n with
  | zero => intros; rfl
  | succ n ih =>
    intro e
    simp only [Pico.cyclesLoop, Networked.cyclesLoop]
    rw [get_zero_point_agree]
    cases Networked.get_zero_point z s w fuel e with
    | none => rfl
    | some p =>
      obtain ⟨zp, e1⟩ := p
      simp only
      rw [squareLoop_agree]
      cases Networked.squareLoop z s w (zp : Int) (ticksUs s e1).1 fuel
          (ticksUs s e1).2 0 0 with
      | none => rfl
      | some q =>
        obtain ⟨vsum, cnt, e2⟩ := q
        by_cases hcnt : cnt = 0
        · simp [hcnt]
        · simp only [if_neg hcnt]
          rw [ih]

/-- The two files' `get_rms_voltage` agree. -/
theorem get_rms_voltage_agree (z : Networked.ZMPT101B) (s : Script)
    (w fuel n : Nat) (e : EnvState) :
    Pico.get_rms_voltage (toPico z) s w fuel n e =
      Networked.get_rms_voltage z s w fuel n e := by
  rw [Pico.get_rms_voltage, Networked.get_rms_voltage, cyclesLoop_agree]
  cases Networked.cyclesLoop z s w fuel n e with
  | none => rfl
  | some o =>
    cases o with
    | none => rfl
    | some p =>
      by_cases hn : n = 0
      · simp [hn]
      · simp only [if_neg hn]
        rfl

/-- C6: the two `ZMPT101B` implementations are behaviourally equivalent
under the field-wise identification `toPico`: construction, sensitivity
update, `get_zero_point` and `get_rms_voltage` produce identical state and
identical results for every configuration, script and fuel. -/
theorem classes_equivalent :
    (∀ pin frequency : Nat,
      toPico (Networked.ZMPT101B.init pin frequency) =
        Pico.ZMPT101B.init pin frequency) ∧
    (∀ (z : Networked.ZMPT101B) (v : ℚ),
      toPico (Networked.set_sensitivity z v) =
        Pico.set_sensitivity (toPico z) v) ∧
    (∀ (z : Networked.ZMPT101B) (s : Script) (w fuel : Nat) (e : EnvState),
      Pico.get_zero_point (toPico z) s w fuel e =
        Networked.get_zero_point z s w fuel e) ∧
    (∀ (z : Networked.ZMPT101B) (s : Script) (w fuel n : Nat) (e : EnvState),
      Pico.get_rms_voltage (toPico z) s w fuel n e =
        Networked.get_rms_voltage z s w fuel n e) :=
  ⟨fun _ _ => rfl, fun _ _ => rfl,
    fun z s w fuel e => get_zero_point_agree z s w fuel e,
    fun z s w fuel n e => get_rms_voltage_agree z s w fuel n e⟩

end EnergyMonitor
